import Mathlib

/-!
Model of the starsmarket server (src/server.js): a file-backed store of
users, gifts and purchases, together with the state-relevant HTTP handlers
(/api/create_gift, /api/sell_gift, /api/purchase, /webhook) and the
user-upserting login endpoints, embedded as pure functions on a `DB` value.
JavaScript number arithmetic is modelled over exact rationals `ℚ`;
`Number.prototype.toFixed(2)` and `Math.round` both round halves toward
positive infinity. Nondeterministic inputs of the code (`Date.now()`,
`new Date().toISOString()`, success or failure of outbound Telegram API
calls) are passed as explicit parameters.
-/

/-- JS `Math.round`: nearest integer, halves toward positive infinity. -/
def jsRound (q : ℚ) : ℤ := ⌊q + 1/2⌋

/-- JS `(+x.toFixed(2))`: round to two decimal places (ties toward +∞). -/
def toFixed2 (q : ℚ) : ℚ := (jsRound (q * 100) : ℚ) / 100

/-- `calculateRubles` from src/server.js line 34:
`+(stars * 1.5 * 1.04).toFixed(2)`, over exact rationals. -/
def calculateRubles (stars : ℚ) : ℚ := toFixed2 (stars * 1.5 * 1.04)

/-- A gift record as stored in `db.gifts` (src/server.js line 149). -/
structure Gift where
  id : String
  ownerId : String
  name : String
  description : String
  stars : ℚ
  for_sale : Bool
  sold : Bool
deriving Repr, DecidableEq

/-- A user record as stored in `db.users` (src/server.js line 68). -/
structure User where
  id : String
  username : String
  avatar : String
  stars : ℚ
  gifts : List String
deriving Repr, DecidableEq

/-- A purchase-ledger record (src/server.js line 238). `buyerId` is an
`Option` because a colonless payload leaves the destructured `buyerId`
as JS `undefined`, which `JSON.stringify` drops from the stored record. -/
structure Purchase where
  giftId : String
  buyerId : Option String
  sellerId : String
  amountRUB : ℚ
  date : String
deriving Repr, DecidableEq

/-- The whole JSON store `db.json`: `{ users: {}, gifts: {}, purchases: [] }`.
JS objects are modelled as association lists in key-insertion order. -/
structure DB where
  users : List (String × User)
  gifts : List (String × Gift)
  purchases : List Purchase
deriving Repr, DecidableEq

/-- The store `loadDB` creates when `db.json` is absent (src/server.js line 24). -/
def emptyDB : DB := ⟨[], [], []⟩

/-- JS object property read `obj[k]`: first (only) binding of the key. -/
def lookupA {α : Type} (l : List (String × α)) (k : String) : Option α :=
  match l with
  | [] => none
  | (k₀, v₀) :: rest => if k₀ = k then some v₀ else lookupA rest k

/-- JS object property write `obj[k] = v`: update in place if the key is
present, else append the new key at the end. -/
def setA {α : Type} (l : List (String × α)) (k : String) (v : α) : List (String × α) :=
  match l with
  | [] => [(k, v)]
  | (k₀, v₀) :: rest => if k₀ = k then (k, v) :: rest else (k₀, v₀) :: setA rest k v

theorem lookupA_setA_self {α : Type} (l : List (String × α)) (k : String) (v : α) :
    lookupA (setA l k v) k = some v := by
  induction l with
  | nil => simp [lookupA, setA]
  | cons hd tl ih =>
    obtain ⟨k₀, v₀⟩ := hd
    by_cases h : k₀ = k
    · simp [lookupA, setA, h]
    · simp [lookupA, setA, h, ih]

theorem lookupA_setA_ne {α : Type} (l : List (String × α)) (k k' : String) (v : α)
    (h : k ≠ k') : lookupA (setA l k v) k' = lookupA l k' := by
  induction l with
  | nil => simp [lookupA, setA, h]
  | cons hd tl ih =>
    obtain ⟨k₀, v₀⟩ := hd
    by_cases h₀ : k₀ = k
    · subst h₀; simp [lookupA, setA, h]
    · simp [lookupA, setA, h₀, ih]

theorem lookupA_setA_surv {α : Type} (l : List (String × α)) (k k' : String) (v v' : α)
    (h : lookupA l k' = some v') :
    ∃ w, lookupA (setA l k v) k' = some w := by
  by_cases hk : k = k'
  · exact ⟨v, by rw [hk] at *; exact lookupA_setA_self l k' v⟩
  · exact ⟨v', by rw [lookupA_setA_ne l k k' v hk]; exact h⟩

/-- POST /api/create_gift (src/server.js lines 144-156). Inputs mirror the
request body; `t` is the value of `Date.now()` at handling time, so the new
gift id is the string `gift-<t>`. `stars` is `none` when the body field is
absent or non-numeric (JS `Number(stars)` is `NaN`); `Number(stars) || 1`
then yields 1, as it does for 0. Returns the new store and whether the
request succeeded (`false` = HTTP 400 for a falsy `ownerId` or `name`). -/
def create_gift (ownerId name description : String) (stars : Option ℚ) (t : Nat)
    (db : DB) : DB × Bool :=
  if ownerId = "" ∨ name = "" then (db, false)
  else
    let id := "gift-" ++ toString t
    let starsVal : ℚ := match stars with
      | none => 1
      | some s => if s = 0 then 1 else s
    let gift : Gift := ⟨id, ownerId, name, description, starsVal, false, false⟩
    let owner : User := match lookupA db.users ownerId with
      | some u => u
      | none => ⟨ownerId, ownerId, "", 0, []⟩
    let owner' : User := { owner with gifts := owner.gifts ++ [id] }
    ({ db with gifts := setA db.gifts id gift,
               users := setA db.users ownerId owner' }, true)

/-- POST /api/sell_gift (src/server.js lines 159-168). `priceStars` is
`none` when absent; `if (priceStars)` also treats a present 0 as falsy and
keeps the old price. Returns the new store and success (`false` = 404). -/
def sell_gift (id : String) (priceStars : Option ℚ) (db : DB) : DB × Bool :=
  match lookupA db.gifts id with
  | none => (db, false)
  | some g =>
    let stars' : ℚ := match priceStars with
      | none => g.stars
      | some p => if p = 0 then g.stars else p
    let g' : Gift := { g with for_sale := true, stars := stars' }
    ({ db with gifts := setA db.gifts id g' }, true)

/-- The error of a rejected purchase request: HTTP 400 `Gift not available`. -/
inductive PurchaseErr where
  | giftUnavailable
deriving Repr, DecidableEq

/-- The `sendInvoice` request body built by the purchase handler
(src/server.js lines 189-198); `provider_token` is the environment
constant `PAYMENT_PROVIDER_TOKEN` and is elided. -/
structure Invoice where
  chat_id : String
  title : String
  description : String
  payload : String
  currency : String
  label : String
  amount : ℤ
  start_parameter : String
deriving Repr, DecidableEq

/-- POST /api/purchase (src/server.js lines 173-206): validate availability,
price the gift, build the `sendInvoice` request and send it the Telegram
API, returning its raw acknowledgment to the caller. The store is returned
unchanged in every branch — the handler only reads it. The external
provider response is opaque; the value returned here is the invoice request
that was sent. -/
def purchase (buyerId giftId : String) (db : DB) : DB × Except PurchaseErr Invoice :=
  match lookupA db.gifts giftId with
  | none => (db, .error .giftUnavailable)
  | some g =>
    if g.sold || !g.for_sale then (db, .error .giftUnavailable)
    else
      let rub := calculateRubles g.stars
      let amountKopecks := jsRound (rub * 100)
      let payload := giftId ++ ":" ++ buyerId
      (db, .ok ⟨buyerId, g.name,
                (if g.description = "" then "Покупка подарка" else g.description),
                payload, "RUB", g.name, amountKopecks, "buy-" ++ giftId⟩)

/-- The `successful_payment` object of a Telegram update. -/
structure SuccessfulPayment where
  invoice_payload : String
deriving Repr, DecidableEq

/-- A Telegram `message`, restricted to the fields the webhook reads. -/
structure Msg where
  successful_payment : Option SuccessfulPayment
  chatId : String
deriving Repr, DecidableEq

/-- An inbound webhook update; `message := none` also covers an empty body. -/
structure Update where
  message : Option Msg
deriving Repr, DecidableEq

/-- Characters before the first colon. -/
def takeUntilColon : List Char → List Char
  | [] => []
  | c :: r => if c = ':' then [] else c :: takeUntilColon r

/-- Characters after the first colon, `none` when there is no colon. -/
def dropThroughColon : List Char → Option (List Char)
  | [] => none
  | c :: r => if c = ':' then some r else dropThroughColon r

/-- `const [giftId, buyerId] = payload.split(':')` (src/server.js line 219):
the first component is everything before the first colon (the whole string
when there is none), the second is the segment between the first and second
colons, `undefined` (`none`) when the payload has no colon. -/
def parsePayload (p : String) : String × Option String :=
  (String.mk (takeUntilColon p.data),
   (dropThroughColon p.data).map (fun r => String.mk (takeUntilColon r)))

/-- An outbound Telegram Bot API call made by the webhook handler. -/
inductive Call where
  | sendMessage (chat_id text : String)
deriving Repr, DecidableEq

/-- The webhook's mutation block (src/server.js lines 227-239): mark the
gift sold and not for sale, credit the seller (when the owner is a known
user), append the Purchase record, `saveDB`. `g` is the looked-up gift. -/
def commit (db : DB) (giftId : String) (buyerId : Option String) (g : Gift)
    (date : String) : DB :=
  let g' : Gift := { g with sold := true, for_sale := false }
  let db₁ := { db with gifts := setA db.gifts giftId g' }
  let db₂ := match lookupA db.users g.ownerId with
    | some seller =>
        let seller' : User := { seller with stars := seller.stars + g.stars }
        { db₁ with users := setA db₁.users g.ownerId seller' }
    | none => db₁
  let record : Purchase := ⟨giftId, buyerId, g.ownerId, calculateRubles g.stars, date⟩
  { db₂ with purchases := db₂.purchases ++ [record] }

/-- POST /webhook (src/server.js lines 210-260). `date` is
`new Date().toISOString()` at handling time; `bFail` (`sFail`) tells
whether the awaited buyer (seller) notification call throws. The handler
body runs in a try/catch: the seller notification has its own inner
try/catch (its failure is only logged, so the result does not depend on
`sFail`), but a throwing buyer notification reaches the outer catch, which
answers HTTP 500 — after `saveDB` has already committed the mutation.
Result: new store, HTTP status, attempted outbound calls. -/
def webhook (u : Update) (date : String) (bFail _sFail : Bool) (db : DB) :
    DB × ℕ × List Call :=
  match u.message with
  | none => (db, 200, [])
  | some m =>
    match m.successful_payment with
    | none => (db, 200, [])
    | some sp =>
      let (giftId, buyerId) := parsePayload sp.invoice_payload
      match lookupA db.gifts giftId with
      | none => (db, 200, [])
      | some g =>
        if g.sold then (db, 200, [])
        else
          let db₃ := commit db giftId buyerId g date
          let buyerCall := Call.sendMessage m.chatId
            ("Поздравляем! Вы получили подарок: " ++ g.name ++ " 🎁")
          if bFail then (db₃, 500, [buyerCall])
          else
            match lookupA db.users g.ownerId with
            | some seller =>
                (db₃, 200, [buyerCall, Call.sendMessage seller.id
                  ("Ваш подарок \"" ++ g.name ++ "\" был продан — на ваш баланс зачислено "
                    ++ toString g.stars ++ " ⭐")])
            | none => (db₃, 200, [buyerCall])

/-- The user upsert shared by GET /auth, /api/user and /api/my_gifts
(src/server.js line 68): `db.users[id] = db.users[id] || defaults` — a
present user is left unchanged, an absent one is created. -/
def loginUpsert (id username avatar : String) (db : DB) : DB :=
  match lookupA db.users id with
  | some _ => db
  | none => { db with users := setA db.users id ⟨id, username, avatar, 0, []⟩ }

/-- One public operation of the server, with all its request inputs and
environment inputs (`Date.now()` value, timestamp string, notification
outcomes) made explicit. `login` stands for any of the user-upserting
read endpoints (GET /auth, /api/user, /api/my_gifts). -/
inductive Op where
  | create (ownerId name description : String) (stars : Option ℚ) (t : Nat)
  | sell (id : String) (priceStars : Option ℚ)
  | buy (buyerId giftId : String)
  | hook (u : Update) (date : String) (bFail sFail : Bool)
  | login (id username avatar : String)
deriving Repr, DecidableEq

/-- The store state after one public operation. -/
def applyOp (op : Op) (db : DB) : DB :=
  match op with
  | .create o n d s t => (create_gift o n d s t db).1
  | .sell i p => (sell_gift i p db).1
  | .buy b g => (purchase b g db).1
  | .hook u d bF sF => (webhook u d bF sF db).1
  | .login i u a => loginUpsert i u a db

/-- Run a sequence of public operations from a given store. -/
def execFrom (db : DB) (ops : List Op) : DB := ops.foldl (fun s op => applyOp op s) db

/-- Run a sequence of public operations from the empty store. -/
def exec (ops : List Op) : DB := execFrom emptyDB ops

/-- A store state reachable from the empty store by public operations. -/
def Reachable (db : DB) : Prop := ∃ ops, exec ops = db

/-- The data the webhook extracts when a confirmation actually fires the
sale transition: the carrying message, the parsed gift and buyer ids, and
the looked-up gift (which exists and is unsold). -/
structure FireData where
  msg : Msg
  gid : String
  bid : Option String
  g : Gift
deriving Repr, DecidableEq

/-- Guard of the sale transition: `some` exactly when the update carries a
successful payment whose parsed gift id names an existing unsold gift. -/
def settles (db : DB) (u : Update) : Option FireData :=
  match u.message with
  | none => none
  | some m =>
    match m.successful_payment with
    | none => none
    | some sp =>
      let (giftId, buyerId) := parsePayload sp.invoice_payload
      match lookupA db.gifts giftId with
      | none => none
      | some g => if g.sold then none else some ⟨m, giftId, buyerId, g⟩

/-- The notification calls the handler attempts after a committed sale. -/
def fireCalls (db : DB) (f : FireData) (bFail : Bool) : List Call :=
  let buyerCall := Call.sendMessage f.msg.chatId
    ("Поздравляем! Вы получили подарок: " ++ f.g.name ++ " 🎁")
  if bFail then [buyerCall]
  else
    match lookupA db.users f.g.ownerId with
    | some seller =>
        [buyerCall, Call.sendMessage seller.id
          ("Ваш подарок \"" ++ f.g.name ++ "\" был продан — на ваш баланс зачислено "
            ++ toString f.g.stars ++ " ⭐")]
    | none => [buyerCall]

theorem webhook_eq (u : Update) (d : String) (bF sF : Bool) (db : DB) :
    webhook u d bF sF db =
      match settles db u with
      | none => (db, 200, [])
      | some f => (commit db f.gid f.bid f.g d, (if bF then 500 else 200), fireCalls db f bF) := by
  obtain ⟨msg⟩ := u
  cases msg with
  | none => rfl
  | some m =>
    cases hm : m.successful_payment with
    | none => simp [webhook, settles, hm]
    | some sp =>
      simp only [webhook, settles, hm]
      cases hg : lookupA db.gifts (parsePayload sp.invoice_payload).1 with
      | none => simp [hg]
      | some g =>
        by_cases hs : g.sold
        · simp [hg, hs]
        · cases hb : bF with
          | true => simp [hg, hs, fireCalls, hb]
          | false =>
            cases hsel : lookupA db.users g.ownerId with
            | none => simp [hg, hs, fireCalls, hb, hsel]
            | some seller => simp [hg, hs, fireCalls, hb, hsel]

theorem commit_gifts (db : DB) (gid : String) (bid : Option String) (g : Gift) (d : String) :
    (commit db gid bid g d).gifts = setA db.gifts gid { g with sold := true, for_sale := false } := by
  unfold commit
  cases lookupA db.users g.ownerId <;> rfl

theorem commit_purchases (db : DB) (gid : String) (bid : Option String) (g : Gift) (d : String) :
    (commit db gid bid g d).purchases =
      db.purchases ++ [⟨gid, bid, g.ownerId, calculateRubles g.stars, d⟩] := by
  unfold commit
  cases lookupA db.users g.ownerId <;> rfl

theorem commit_users (db : DB) (gid : String) (bid : Option String) (g : Gift) (d : String) :
    (commit db gid bid g d).users =
      match lookupA db.users g.ownerId with
      | some seller => setA db.users g.ownerId { seller with stars := seller.stars + g.stars }
      | none => db.users := by
  unfold commit
  cases lookupA db.users g.ownerId <;> rfl

theorem settles_some (db : DB) (u : Update) (f : FireData) (h : settles db u = some f) :
    ∃ sp, u.message = some f.msg ∧ f.msg.successful_payment = some sp ∧
      (parsePayload sp.invoice_payload).1 = f.gid ∧
      (parsePayload sp.invoice_payload).2 = f.bid ∧
      lookupA db.gifts f.gid = some f.g ∧ f.g.sold = false := by
  obtain ⟨msg⟩ := u
  cases msg with
  | none => simp [settles] at h
  | some m =>
    cases hm : m.successful_payment with
    | none => simp [settles, hm] at h
    | some sp =>
      simp only [settles, hm] at h
      cases hg : lookupA db.gifts (parsePayload sp.invoice_payload).1 with
      | none => simp [hg] at h
      | some g =>
        by_cases hs : g.sold
        · simp [hg, hs] at h
        · rw [Bool.not_eq_true] at hs
          simp only [hg, hs, Bool.false_eq_true, if_false, Option.some_inj] at h
          subst h
          exact ⟨sp, rfl, hm, rfl, rfl, hg, hs⟩

theorem settles_of (db : DB) (u : Update) (m : Msg) (sp : SuccessfulPayment) (g : Gift)
    (hm : u.message = some m) (hsp : m.successful_payment = some sp)
    (hg : lookupA db.gifts (parsePayload sp.invoice_payload).1 = some g)
    (hns : g.sold = false) :
    settles db u = some ⟨m, (parsePayload sp.invoice_payload).1,
      (parsePayload sp.invoice_payload).2, g⟩ := by
  obtain ⟨msg⟩ := u
  cases hm
  simp [settles, hsp, hg, hns]

theorem settles_commit_none (db : DB) (u : Update) (f : FireData) (d : String)
    (h : settles db u = some f) :
    settles (commit db f.gid f.bid f.g d) u = none := by
  obtain ⟨sp, hm, hsp, hg1, hb1, hg, hns⟩ := settles_some db u f h
  obtain ⟨msg⟩ := u
  cases hm
  simp [settles, hsp, hg1, commit_gifts, lookupA_setA_self]

theorem webhook_twice (u : Update) (d₁ d₂ : String) (b₁ s₁ b₂ s₂ : Bool) (db : DB) :
    webhook u d₂ b₂ s₂ (webhook u d₁ b₁ s₁ db).1 = ((webhook u d₁ b₁ s₁ db).1, 200, []) := by
  rw [webhook_eq u d₁ b₁ s₁ db]
  cases hf : settles db u with
  | none =>
    simp only
    rw [webhook_eq]
    simp [hf]
  | some f =>
    simp only
    rw [webhook_eq]
    rw [settles_commit_none db u f d₁ hf]

theorem purchase_fst (b gid : String) (db : DB) : (purchase b gid db).1 = db := by
  unfold purchase
  cases lookupA db.gifts gid with
  | none => rfl
  | some g => by_cases h : (g.sold || !g.for_sale) = true <;> simp [h]

theorem exec_snoc (ops : List Op) (op : Op) : exec (ops ++ [op]) = applyOp op (exec ops) := by
  simp [exec, execFrom, List.foldl_append]

/-- Does the update carry a `successful_payment` message? -/
def isPaymentEvent (u : Update) : Bool :=
  match u.message with
  | none => false
  | some m => m.successful_payment.isSome

/-- Decidable form of the gift-state invariant of the spec: every stored
gift with `sold = true` has `for_sale = false`. -/
def invSFb (db : DB) : Bool := db.gifts.all (fun kg => !(kg.2.sold && kg.2.for_sale))

theorem all_setA {α : Type} (l : List (String × α)) (k : String) (v : α)
    (p : String × α → Bool) (hl : l.all p = true) (hv : p (k, v) = true) :
    (setA l k v).all p = true := by
  induction l with
  | nil => simp [setA, hv]
  | cons hd tl ih =>
    obtain ⟨k₀, v₀⟩ := hd
    simp only [List.all_cons, Bool.and_eq_true] at hl
    by_cases h : k₀ = k
    · simp [setA, h, hv, hl.2]
    · simp only [setA, h, if_false, List.all_cons, Bool.and_eq_true]
      exact ⟨hl.1, ih hl.2⟩

theorem invSFb_create (o n de : String) (s : Option ℚ) (t : Nat) (db : DB)
    (h : invSFb db = true) : invSFb (create_gift o n de s t db).1 = true := by
  unfold create_gift
  by_cases hc : o = "" ∨ n = ""
  · simpa [hc] using h
  · simp only [hc, if_false, invSFb] at h ⊢
    exact all_setA _ _ _ _ h (by simp)

theorem invSFb_sell (i : String) (p : Option ℚ) (db : DB)
    (h : invSFb db = true)
    (hu : ∀ g, lookupA db.gifts i = some g → g.sold = false) :
    invSFb (sell_gift i p db).1 = true := by
  unfold sell_gift
  cases hg : lookupA db.gifts i with
  | none => simpa using h
  | some g =>
    simp only [invSFb] at h ⊢
    exact all_setA _ _ _ _ h (by simp [hu g hg])

theorem invSFb_purchase (b gid : String) (db : DB) (h : invSFb db = true) :
    invSFb (purchase b gid db).1 = true := by
  rw [purchase_fst]; exact h

theorem invSFb_webhook (u : Update) (d : String) (bF sF : Bool) (db : DB)
    (h : invSFb db = true) : invSFb (webhook u d bF sF db).1 = true := by
  rw [webhook_eq]
  cases hf : settles db u with
  | none => exact h
  | some f =>
    simp only [invSFb, commit_gifts] at h ⊢
    exact all_setA _ _ _ _ h (by simp)

theorem invSFb_login (i un av : String) (db : DB) (h : invSFb db = true) :
    invSFb (loginUpsert i un av db) = true := by
  unfold loginUpsert
  cases lookupA db.users i <;> simpa using h

/-- Every stored gift's owner is a known user. This holds in every
reachable store because gift creation upserts the owner and no operation
removes users. -/
def OwnersOK (db : DB) : Prop :=
  ∀ k g, lookupA db.gifts k = some g → ∃ w, lookupA db.users g.ownerId = some w

theorem ownersOK_create (o n de : String) (s : Option ℚ) (t : Nat) (db : DB)
    (h : OwnersOK db) : OwnersOK (create_gift o n de s t db).1 := by
  unfold create_gift
  by_cases hc : o = "" ∨ n = ""
  · simpa [hc] using h
  · simp only [hc, if_false]
    intro k g hk
    by_cases hki : ("gift-" ++ toString t) = k
    · subst hki
      rw [lookupA_setA_self] at hk
      obtain rfl : _ = g := Option.some_inj.mp hk
      exact ⟨_, lookupA_setA_self _ _ _⟩
    · rw [lookupA_setA_ne _ _ _ _ hki] at hk
      obtain ⟨w, hw⟩ := h k g hk
      exact lookupA_setA_surv _ _ _ _ _ hw

theorem ownersOK_sell (i : String) (p : Option ℚ) (db : DB)
    (h : OwnersOK db) : OwnersOK (sell_gift i p db).1 := by
  unfold sell_gift
  cases hg : lookupA db.gifts i with
  | none => simpa using h
  | some g₀ =>
    intro k g hk
    by_cases hki : i = k
    · subst hki
      rw [lookupA_setA_self] at hk
      obtain rfl : _ = g := Option.some_inj.mp hk
      exact h i g₀ hg
    · rw [lookupA_setA_ne _ _ _ _ hki] at hk
      exact h k g hk

theorem ownersOK_purchase (b gid : String) (db : DB) (h : OwnersOK db) :
    OwnersOK (purchase b gid db).1 := by
  rw [purchase_fst]; exact h

theorem ownersOK_webhook (u : Update) (d : String) (bF sF : Bool) (db : DB)
    (h : OwnersOK db) : OwnersOK (webhook u d bF sF db).1 := by
  rw [webhook_eq]
  cases hf : settles db u with
  | none => exact h
  | some f =>
    obtain ⟨sp, hm, hsp, hg1, hb1, hg, hns⟩ := settles_some db u f hf
    intro k g hk
    rw [commit_gifts] at hk
    rw [commit_users]
    by_cases hki : f.gid = k
    · subst hki
      rw [lookupA_setA_self] at hk
      obtain rfl : _ = g := Option.some_inj.mp hk
      obtain ⟨w, hw⟩ := h f.gid f.g hg
      simp only [hw]
      exact ⟨_, lookupA_setA_self _ _ _⟩
    · rw [lookupA_setA_ne _ _ _ _ hki] at hk
      obtain ⟨w, hw⟩ := h k g hk
      cases hsel : lookupA db.users f.g.ownerId with
      | none => exact ⟨w, hw⟩
      | some seller => exact lookupA_setA_surv _ _ _ _ _ hw

theorem ownersOK_login (i un av : String) (db : DB) (h : OwnersOK db) :
    OwnersOK (loginUpsert i un av db) := by
  unfold loginUpsert
  cases hu : lookupA db.users i with
  | some w => exact h
  | none =>
    intro k g hk
    obtain ⟨w, hw⟩ := h k g hk
    exact lookupA_setA_surv _ _ _ _ _ hw

theorem ownersOK_applyOp (op : Op) (db : DB) (h : OwnersOK db) :
    OwnersOK (applyOp op db) := by
  cases op with
  | create o n de s t => exact ownersOK_create o n de s t db h
  | sell i p => exact ownersOK_sell i p db h
  | buy b g => exact ownersOK_purchase b g db h
  | hook u d bF sF => exact ownersOK_webhook u d bF sF db h
  | login i un av => exact ownersOK_login i un av db h

theorem ownersOK_execFrom (ops : List Op) : ∀ db : DB, OwnersOK db →
    OwnersOK (execFrom db ops) := by
  induction ops with
  | nil => intro db h; exact h
  | cons op rest ih =>
    intro db h
    have : execFrom db (op :: rest) = execFrom (applyOp op db) rest := by
      simp [execFrom]
    rw [this]
    exact ih _ (ownersOK_applyOp op db h)

theorem ownersOK_emptyDB : OwnersOK emptyDB := by
  intro k g hk
  simp [lookupA, emptyDB] at hk

theorem reachable_ownersOK (db : DB) (h : Reachable db) : OwnersOK db := by
  obtain ⟨ops, rfl⟩ := h
  exact ownersOK_execFrom ops emptyDB ownersOK_emptyDB

/-- Ledger invariant: every Purchase record points at an existing gift that
is marked sold, and no two records name the same gift. -/
def Inv4 (db : DB) : Prop :=
  (∀ p ∈ db.purchases, ∃ g, lookupA db.gifts p.giftId = some g ∧ g.sold = true) ∧
  (db.purchases.map Purchase.giftId).Nodup

/-- Along a run of `ops` from `db`: does every `create_gift` call generate
an id that is not already a stored gift id? `Date.now()` is nondecreasing
but not strictly increasing, so this can fail for two creations in the same
millisecond; it holds whenever the `t` inputs of the creates are pairwise
distinct. -/
def freshCreatesB : DB → List Op → Bool
  | _, [] => true
  | db, op :: rest =>
    (match op with
     | .create _ _ _ _ t => (lookupA db.gifts ("gift-" ++ toString t)).isNone
     | _ => true) && freshCreatesB (applyOp op db) rest

theorem inv4_create (o n de : String) (s : Option ℚ) (t : Nat) (db : DB)
    (h : Inv4 db) (hfresh : lookupA db.gifts ("gift-" ++ toString t) = none) :
    Inv4 (create_gift o n de s t db).1 := by
  unfold create_gift
  by_cases hc : o = "" ∨ n = ""
  · simpa [hc] using h
  · simp only [hc, if_false]
    refine ⟨?_, h.2⟩
    intro p hp
    obtain ⟨g, hg, hs⟩ := h.1 p hp
    have hne : ("gift-" ++ toString t) ≠ p.giftId := by
      intro he
      rw [he] at hfresh
      rw [hfresh] at hg
      exact Option.noConfusion hg
    rw [lookupA_setA_ne _ _ _ _ hne]
    exact ⟨g, hg, hs⟩

theorem inv4_sell (i : String) (pr : Option ℚ) (db : DB) (h : Inv4 db) :
    Inv4 (sell_gift i pr db).1 := by
  unfold sell_gift
  cases hg0 : lookupA db.gifts i with
  | none => simpa using h
  | some g₀ =>
    refine ⟨?_, h.2⟩
    intro p hp
    obtain ⟨g, hg, hs⟩ := h.1 p hp
    by_cases hki : i = p.giftId
    · subst hki
      rw [hg0] at hg
      obtain rfl : g₀ = g := Option.some_inj.mp hg
      rw [lookupA_setA_self]
      exact ⟨_, rfl, hs⟩
    · rw [lookupA_setA_ne _ _ _ _ hki]
      exact ⟨g, hg, hs⟩

theorem inv4_purchase (b gid : String) (db : DB) (h : Inv4 db) :
    Inv4 (purchase b gid db).1 := by
  rw [purchase_fst]; exact h

theorem inv4_webhook (u : Update) (d : String) (bF sF : Bool) (db : DB)
    (h : Inv4 db) : Inv4 (webhook u d bF sF db).1 := by
  rw [webhook_eq]
  cases hf : settles db u with
  | none => exact h
  | some f =>
    obtain ⟨sp, hm, hsp, hg1, hb1, hg, hns⟩ := settles_some db u f hf
    have hold : ∀ p ∈ db.purchases, p.giftId ≠ f.gid := by
      intro p hp he
      obtain ⟨g, hgp, hs⟩ := h.1 p hp
      rw [he, hg] at hgp
      obtain rfl : f.g = g := Option.some_inj.mp hgp
      rw [hns] at hs
      exact Bool.noConfusion hs
    constructor
    · intro p hp
      rw [commit_purchases] at hp
      rw [commit_gifts]
      rcases List.mem_append.mp hp with hp | hp
      · obtain ⟨g, hgp, hs⟩ := h.1 p hp
        have hne : f.gid ≠ p.giftId := fun he => hold p hp he.symm
        rw [lookupA_setA_ne _ _ _ _ hne]
        exact ⟨g, hgp, hs⟩
      · obtain rfl : _ = p := List.mem_singleton.mp hp |>.symm
        rw [lookupA_setA_self]
        exact ⟨_, rfl, rfl⟩
    · rw [commit_purchases, List.map_append, List.nodup_append]
      refine ⟨h.2, List.nodup_singleton _, ?_⟩
      intro a ha hb
      simp only [List.map_cons, List.map_nil, List.mem_singleton] at hb
      subst hb
      obtain ⟨p, hp, hpe⟩ := List.mem_map.mp ha
      exact hold p hp hpe

theorem inv4_login (i un av : String) (db : DB) (h : Inv4 db) :
    Inv4 (loginUpsert i un av db) := by
  unfold loginUpsert
  cases lookupA db.users i <;> simpa using h

theorem inv4_applyOp (op : Op) (db : DB) (h : Inv4 db)
    (hfresh : (match op with
       | .create _ _ _ _ t => (lookupA db.gifts ("gift-" ++ toString t)).isNone
       | _ => true) = true) :
    Inv4 (applyOp op db) := by
  cases op with
  | create o n de s t =>
    exact inv4_create o n de s t db h (by simpa [Option.isNone_iff_eq_none] using hfresh)
  | sell i p => exact inv4_sell i p db h
  | buy b g => exact inv4_purchase b g db h
  | hook u d bF sF => exact inv4_webhook u d bF sF db h
  | login i un av => exact inv4_login i un av db h

theorem inv4_execFrom (ops : List Op) : ∀ db : DB, Inv4 db →
    freshCreatesB db ops = true → Inv4 (execFrom db ops) := by
  induction ops with
  | nil => intro db h _; exact h
  | cons op rest ih =>
    intro db h hfr
    simp only [freshCreatesB, Bool.and_eq_true] at hfr
    have : execFrom db (op :: rest) = execFrom (applyOp op db) rest := by
      simp [execFrom]
    rw [this]
    exact ih _ (inv4_applyOp op db h hfr.1) hfr.2

theorem inv4_emptyDB : Inv4 emptyDB := by
  constructor
  · intro p hp; simp [emptyDB] at hp
  · simp [emptyDB]

theorem filter_giftId_len (l : List Purchase) (gid : String)
    (h : (l.map Purchase.giftId).Nodup) :
    (l.filter (fun p => p.giftId == gid)).length ≤ 1 := by
  induction l with
  | nil => simp
  | cons p l ih =>
    simp only [List.map_cons, List.nodup_cons] at h
    obtain ⟨hnot, hl⟩ := h
    by_cases hp : p.giftId = gid
    · have hempty : l.filter (fun q => q.giftId == gid) = [] := by
        rw [List.filter_eq_nil_iff]
        intro q hq
        simp only [beq_iff_eq]
        intro hq2
        exact hnot (by rw [hp, ← hq2]; exact List.mem_map_of_mem Purchase.giftId hq)
      simp [List.filter_cons, hp, hempty]
    · simp only [List.filter_cons, beq_iff_eq, hp, if_false]
      exact ih hl

theorem jsRound_intCast (k : ℤ) : jsRound (k : ℚ) = k := by
  unfold jsRound
  rw [Int.floor_int_add]
  norm_num

theorem calculateRubles_nat (n : ℕ) : calculateRubles (n : ℚ) = 39 * n / 25 := by
  unfold calculateRubles toFixed2
  have h1 : ((n : ℚ) * 1.5 * 1.04) * 100 = ((156 * (n : ℤ) : ℤ) : ℚ) := by
    push_cast
    ring
  rw [h1, jsRound_intCast]
  push_cast
  ring

/-- Does the string contain a colon? -/
def hasColon (p : String) : Bool := p.data.any (fun c => c = ':')

theorem takeUntilColon_all (cs : List Char) (h : ∀ c ∈ cs, ¬(c = ':')) :
    takeUntilColon cs = cs := by
  induction cs with
  | nil => rfl
  | cons c r ih =>
    simp only [takeUntilColon, h c (List.mem_cons_self c r), if_false]
    rw [ih (fun x hx => h x (List.mem_cons_of_mem c hx))]

theorem dropThroughColon_all (cs : List Char) (h : ∀ c ∈ cs, ¬(c = ':')) :
    dropThroughColon cs = none := by
  induction cs with
  | nil => rfl
  | cons c r ih =>
    simp only [dropThroughColon, h c (List.mem_cons_self c r), if_false]
    exact ih (fun x hx => h x (List.mem_cons_of_mem c hx))

theorem parsePayload_no_colon (p : String) (h : hasColon p = false) :
    parsePayload p = (p, none) := by
  have h' : ∀ c ∈ p.data, ¬(c = ':') := by
    intro c hc he
    have : hasColon p = true := by
      unfold hasColon
      rw [List.any_eq_true]
      exact ⟨c, hc, by simp [he]⟩
    rw [h] at this
    exact Bool.noConfusion this
  unfold parsePayload
  rw [takeUntilColon_all _ h', dropThroughColon_all _ h']
  obtain ⟨cs⟩ := p
  rfl

/-- A payment-confirmation update for gift `gift-1` bought by `u2`. -/
def evW : Update := ⟨some ⟨some ⟨"gift-1:u2"⟩, "u2"⟩⟩

/-- Create gift `gift-1` (price 10 stars) for user `u1` and list it. -/
def trW : List Op := [.create "u1" "G" "" (some 10) 1, .sell "gift-1" none]

/-- The store after `trW`: one listed, unsold 10-star gift. -/
def dbW : DB := exec trW

/-- `trW` followed by a settlement of `gift-1`: the gift is now sold. -/
def trC2 : List Op := trW ++ [.hook evW "D" false false]

/-- C1: for every reachable store and every payment-confirmation event,
running the webhook handler twice with the identical event leaves the
state where one run put it; the second invocation is acknowledged with
HTTP 200 and performs no outbound call (in particular no re-credit). -/
theorem settlement_idempotent (db : DB) (_hdb : Reachable db) (u : Update)
    (_hu : isPaymentEvent u = true) (d₁ d₂ : String) (b₁ s₁ b₂ s₂ : Bool) :
    (webhook u d₂ b₂ s₂ (webhook u d₁ b₁ s₁ db).1).1 = (webhook u d₁ b₁ s₁ db).1 ∧
    (webhook u d₂ b₂ s₂ (webhook u d₁ b₁ s₁ db).1).2.1 = 200 ∧
    (webhook u d₂ b₂ s₂ (webhook u d₁ b₁ s₁ db).1).2.2 = ([] : List Call) := by
  rw [webhook_twice u d₁ d₂ b₁ s₁ b₂ s₂ db]
  exact ⟨rfl, rfl, rfl⟩

/-- Witness for C1 at the concrete reachable store `dbW` and event `evW`. -/
theorem settlement_idempotent_w :
    (webhook evW "D2" true true (webhook evW "D1" false false dbW).1).1
      = (webhook evW "D1" false false dbW).1 ∧
    (webhook evW "D2" true true (webhook evW "D1" false false dbW).1).2.1 = 200 ∧
    (webhook evW "D2" true true (webhook evW "D1" false false dbW).1).2.2 = ([] : List Call) :=
  settlement_idempotent dbW ⟨trW, rfl⟩ evW (by decide) "D1" "D2" false false true true

/-- C2 counterexample: the state reached by creating, listing and selling
`gift-1` satisfies the invariant `sold ⇒ ¬for_sale`, but one further
public `sell_gift` call on the sold gift re-lists it and breaks the
invariant — and the broken state is itself reachable. -/
theorem sold_forSale_invariant_cex :
    invSFb (exec trC2) = true ∧
    invSFb (applyOp (.sell "gift-1" none) (exec trC2)) = false ∧
    Reachable (applyOp (.sell "gift-1" none) (exec trC2)) :=
  ⟨by decide, by decide, ⟨trC2 ++ [.sell "gift-1" none], exec_snoc trC2 _⟩⟩

/-- C2 amended: in any store satisfying `sold ⇒ ¬for_sale`, the invariant
is preserved by create_gift, purchase, webhook settlement and the login
upsert, and by sell_gift whenever its target gift is absent or unsold;
sell_gift on an already-sold gift is the one public operation that breaks
it (it sets `for_sale = true` without checking `sold`). -/
theorem sold_forSale_invariant_amended (db : DB) (h : invSFb db = true) :
    (∀ o n de s t, invSFb (create_gift o n de s t db).1 = true) ∧
    (∀ b gid, invSFb (purchase b gid db).1 = true) ∧
    (∀ u d bF sF, invSFb (webhook u d bF sF db).1 = true) ∧
    (∀ i un av, invSFb (loginUpsert i un av db) = true) ∧
    (∀ i p, (∀ g, lookupA db.gifts i = some g → g.sold = false) →
      invSFb (sell_gift i p db).1 = true) :=
  ⟨fun o n de s t => invSFb_create o n de s t db h,
   fun b gid => invSFb_purchase b gid db h,
   fun u d bF sF => invSFb_webhook u d bF sF db h,
   fun i un av => invSFb_login i un av db h,
   fun i p hg => invSFb_sell i p db h hg⟩

/-- Witness for the amended C2 at the concrete store `dbW`. -/
theorem sold_forSale_invariant_amended_w :
    invSFb dbW = true ∧ invSFb (loginUpsert "x" "x" "" dbW) = true :=
  ⟨by decide, ((sold_forSale_invariant_amended dbW (by decide)).2.2.2.1) "x" "x" ""⟩

/-- C6: a purchase request (any buyer, any gift, succeeding or failing)
leaves the stored users, gifts and purchases unchanged: the invoice issuer
is mutation-free; state changes happen only in the webhook handler. -/
theorem purchase_no_mutation (db : DB) (b gid : String) : (purchase b gid db).1 = db :=
  purchase_fst b gid db

/-- C10: an inbound update with no `successful_payment` message (any other
update shape, including an empty body) leaves the store unchanged, makes
no outbound provider call, and is answered with HTTP 200. -/
theorem nonpayment_update_noop (u : Update) (h : isPaymentEvent u = false)
    (d : String) (bF sF : Bool) (db : DB) :
    webhook u d bF sF db = (db, 200, ([] : List Call)) := by
  obtain ⟨msg⟩ := u
  cases msg with
  | none => rfl
  | some m =>
    cases hm : m.successful_payment with
    | some sp => simp [isPaymentEvent, hm] at h
    | none => simp [webhook, hm]

/-- Witness for C10 at a concrete non-payment update and store. -/
theorem nonpayment_update_noop_w :
    webhook ⟨some ⟨none, "c1"⟩⟩ "D" false false dbW = (dbW, 200, ([] : List Call)) :=
  nonpayment_update_noop ⟨some ⟨none, "c1"⟩⟩ (by decide) "D" false false dbW

/-- C3: in any reachable store, whenever the webhook applies the sale
transition (the payload's gift exists and was unsold), afterwards the gift
is `sold = true, for_sale = false`, exactly one Purchase record for that
gift id has been appended, and the seller's balance has grown by exactly
the gift's star price — all three together, never a partial subset
(reachability guarantees the owner is a known user, so the credit cannot
be skipped). -/
theorem settlement_atomic (db : DB) (hdb : Reachable db) (u : Update) (m : Msg)
    (sp : SuccessfulPayment) (g : Gift) (hm : u.message = some m)
    (hsp : m.successful_payment = some sp)
    (hg : lookupA db.gifts (parsePayload sp.invoice_payload).1 = some g)
    (hns : g.sold = false) (d : String) (bF sF : Bool) :
    lookupA (webhook u d bF sF db).1.gifts (parsePayload sp.invoice_payload).1 =
      some { g with sold := true, for_sale := false } ∧
    (webhook u d bF sF db).1.purchases = db.purchases ++
      [⟨(parsePayload sp.invoice_payload).1, (parsePayload sp.invoice_payload).2,
        g.ownerId, calculateRubles g.stars, d⟩] ∧
    ∃ seller, lookupA db.users g.ownerId = some seller ∧
      lookupA (webhook u d bF sF db).1.users g.ownerId =
        some { seller with stars := seller.stars + g.stars } := by
  have hsettle := settles_of db u m sp g hm hsp hg hns
  rw [webhook_eq, hsettle]
  refine ⟨?_, ?_, ?_⟩
  · rw [commit_gifts, lookupA_setA_self]
  · rw [commit_purchases]
  · obtain ⟨seller, hsel⟩ := reachable_ownersOK db hdb _ g hg
    refine ⟨seller, hsel, ?_⟩
    rw [commit_users]
    simp only [hsel]
    exact lookupA_setA_self _ _ _

/-- Witness for C3 at the concrete reachable store `dbW` and event `evW`. -/
theorem settlement_atomic_w :
    lookupA (webhook evW "D" false false dbW).1.gifts (parsePayload "gift-1:u2").1 =
      some ⟨"gift-1", "u1", "G", "", 10, false, true⟩ ∧
    (webhook evW "D" false false dbW).1.purchases = dbW.purchases ++
      [⟨(parsePayload "gift-1:u2").1, (parsePayload "gift-1:u2").2,
        "u1", calculateRubles 10, "D"⟩] ∧
    ∃ seller, lookupA dbW.users "u1" = some seller ∧
      lookupA (webhook evW "D" false false dbW).1.users "u1" =
        some { seller with stars := seller.stars + 10 } :=
  settlement_atomic dbW ⟨trW, rfl⟩ evW ⟨some ⟨"gift-1:u2"⟩, "u2"⟩ ⟨"gift-1:u2"⟩
    ⟨"gift-1", "u1", "G", "", 10, true, false⟩ rfl rfl (by decide) rfl "D" false false

/-- A payment-confirmation update for gift `gift-7` bought by `u2`. -/
def ev7 : Update := ⟨some ⟨some ⟨"gift-7:u2"⟩, "u2"⟩⟩

/-- Two `create_gift` calls in the same millisecond (`Date.now() = 7`):
the second silently overwrites the already-sold `gift-7` with a fresh
unsold gift, which is then listed and sold a second time. -/
def tr7 : List Op :=
  [.create "u1" "A" "" (some 5) 7, .sell "gift-7" none, .hook ev7 "D1" false false,
   .create "u1" "B" "" (some 5) 7, .sell "gift-7" none, .hook ev7 "D2" false false]

/-- C4 counterexample: the store reached by `tr7` — a sequence of public
operations from the empty store — carries two Purchase records for the
same gift id `gift-7`. -/
theorem no_double_sale_cex :
    Reachable (exec tr7) ∧
    ((exec tr7).purchases.filter (fun p => p.giftId == "gift-7")).length = 2 :=
  ⟨⟨tr7, rfl⟩, by decide⟩

/-- C4 amended: at most one Purchase record per gift id holds in every
store reachable by a sequence of public operations in which each
`create_gift` call generates an id not already present among the stored
gifts (as is the case whenever the `Date.now()` values of the creates are
pairwise distinct); with a same-millisecond id collision, `create_gift`
overwrites a sold gift and that gift id can be sold again. -/
theorem no_double_sale_amended (ops : List Op) (h : freshCreatesB emptyDB ops = true)
    (gid : String) :
    ((exec ops).purchases.filter (fun p => p.giftId == gid)).length ≤ 1 := by
  have h4 : Inv4 (exec ops) := inv4_execFrom ops emptyDB inv4_emptyDB h
  exact filter_giftId_len _ gid h4.2

/-- Witness for the amended C4 on the concrete fresh trace `trC2`. -/
theorem no_double_sale_amended_w :
    freshCreatesB emptyDB trC2 = true ∧
    ((exec trC2).purchases.filter (fun p => p.giftId == "gift-1")).length ≤ 1 :=
  ⟨by decide, no_double_sale_amended trC2 (by decide) "gift-1"⟩

theorem purchase_snd_none (b gid : String) (db : DB)
    (h : lookupA db.gifts gid = none) :
    (purchase b gid db).2 = Except.error PurchaseErr.giftUnavailable := by
  simp [purchase, h]

theorem purchase_snd_reject (b gid : String) (db : DB) (g : Gift)
    (h : lookupA db.gifts gid = some g) (hs : (g.sold || !g.for_sale) = true) :
    (purchase b gid db).2 = Except.error PurchaseErr.giftUnavailable := by
  simp [purchase, h, hs]

theorem purchase_snd_ok (b gid : String) (db : DB) (g : Gift)
    (h : lookupA db.gifts gid = some g) (hs : (g.sold || !g.for_sale) = false) :
    (purchase b gid db).2 = Except.ok ⟨b, g.name,
      (if g.description = "" then "Покупка подарка" else g.description),
      gid ++ ":" ++ b, "RUB", g.name, jsRound (calculateRubles g.stars * 100),
      "buy-" ++ gid⟩ := by
  simp [purchase, h, hs]

/-- C5: a purchase request is answered with the `Gift not available` error
exactly when the gift is missing, already sold, or not listed for sale;
otherwise the handler sends the `sendInvoice` request built from the gift
(and relays the provider's raw acknowledgment). -/
theorem gift_unavailable_iff (db : DB) (b gid : String) :
    (((purchase b gid db).2 = Except.error PurchaseErr.giftUnavailable) ↔
      (lookupA db.gifts gid = none ∨
        ∃ g, lookupA db.gifts gid = some g ∧ (g.sold = true ∨ g.for_sale = false))) ∧
    (∀ g, lookupA db.gifts gid = some g → g.sold = false → g.for_sale = true →
      (purchase b gid db).2 = Except.ok ⟨b, g.name,
        (if g.description = "" then "Покупка подарка" else g.description),
        gid ++ ":" ++ b, "RUB", g.name, jsRound (calculateRubles g.stars * 100),
        "buy-" ++ gid⟩) := by
  constructor
  · cases hg : lookupA db.gifts gid with
    | none =>
      constructor
      · intro _
        exact Or.inl rfl
      · intro _
        exact purchase_snd_none b gid db hg
    | some g =>
      cases hs : (g.sold || !g.for_sale) with
      | true =>
        constructor
        · intro _
          refine Or.inr ⟨g, rfl, ?_⟩
          rcases Bool.or_eq_true_iff.mp hs with h | h
          · exact Or.inl h
          · exact Or.inr (by simpa using h)
        · intro _
          exact purchase_snd_reject b gid db g hg hs
      | false =>
        constructor
        · intro hcontra
          rw [purchase_snd_ok b gid db g hg hs] at hcontra
          exact Except.noConfusion hcontra
        · intro hcase
          rcases hcase with h | ⟨g', hg', hdis⟩
          · exact absurd h (by simp)
          · obtain rfl : g = g' := Option.some_inj.mp (hg ▸ hg')
            have : (g.sold || !g.for_sale) = true := by
              rcases hdis with h | h <;> simp [h]
            rw [this] at hs
            exact absurd hs (by simp)
  · intro g hg hsold hfs
    exact purchase_snd_ok b gid db g hg (by simp [hsold, hfs])

/-- Witness for C5: the concrete store `dbW` sells `gift-1`, so a purchase
request for it is accepted and the exact invoice request is produced. -/
theorem gift_unavailable_iff_w :
    (purchase "u2" "gift-1" dbW).2 = Except.ok ⟨"u2", "G", "Покупка подарка",
      "gift-1:u2", "RUB", "G", jsRound (calculateRubles 10 * 100), "buy-gift-1"⟩ := by
  have h := (gift_unavailable_iff dbW "u2" "gift-1").2
    ⟨"gift-1", "u1", "G", "", 10, true, false⟩ (by decide) rfl rfl
  simpa using h

/-- C7 counterexample: on the reachable store `dbW`, a confirmation whose
buyer notification throws commits the sale mutation but is answered with
HTTP 500, not a success acknowledgment: the buyer `sendMessage` await is
not shielded by its own try/catch, so its failure reaches the outer catch. -/
theorem notification_failure_cex :
    (webhook evW "D" true false dbW).2.1 = 500 ∧
    (lookupA (webhook evW "D" true false dbW).1.gifts "gift-1").map Gift.sold = some true ∧
    (webhook evW "D" true false dbW).1.purchases.length = dbW.purchases.length + 1 :=
  ⟨by decide, by decide, by decide⟩

/-- C7 amended: once the sale transition fires, the committed mutation is
the same regardless of both notification outcomes (never rolled back);
a seller-notification failure is swallowed and the provider still gets
HTTP 200; a buyer-notification failure, however, yields HTTP 500 — the
provider's redelivery is then absorbed as a duplicate: unchanged state,
HTTP 200, no outbound calls. -/
theorem notification_failure_amended (db : DB) (u : Update) (m : Msg)
    (sp : SuccessfulPayment) (g : Gift) (hm : u.message = some m)
    (hsp : m.successful_payment = some sp)
    (hg : lookupA db.gifts (parsePayload sp.invoice_payload).1 = some g)
    (hns : g.sold = false) (d : String) (bF sF sF' : Bool) :
    (webhook u d bF sF db).1 =
      commit db (parsePayload sp.invoice_payload).1 (parsePayload sp.invoice_payload).2 g d ∧
    (webhook u d false sF db).2.1 = 200 ∧
    (webhook u d true sF' db).2.1 = 500 ∧
    webhook u d bF sF (webhook u d true sF' db).1
      = ((webhook u d true sF' db).1, 200, ([] : List Call)) := by
  have hsettle := settles_of db u m sp g hm hsp hg hns
  refine ⟨?_, ?_, ?_, webhook_twice u d d true sF' bF sF db⟩
  · rw [webhook_eq, hsettle]
  · rw [webhook_eq, hsettle]
    rfl
  · rw [webhook_eq, hsettle]
    rfl

/-- Witness for the amended C7 at the concrete store `dbW` and event `evW`. -/
theorem notification_failure_amended_w :
    (webhook evW "D" false false dbW).1 =
      commit dbW (parsePayload "gift-1:u2").1 (parsePayload "gift-1:u2").2
        ⟨"gift-1", "u1", "G", "", 10, true, false⟩ "D" ∧
    (webhook evW "D" false false dbW).2.1 = 200 ∧
    (webhook evW "D" true false dbW).2.1 = 500 ∧
    webhook evW "D" false false (webhook evW "D" true false dbW).1
      = ((webhook evW "D" true false dbW).1, 200, ([] : List Call)) :=
  notification_failure_amended dbW evW ⟨some ⟨"gift-1:u2"⟩, "u2"⟩ ⟨"gift-1:u2"⟩
    ⟨"gift-1", "u1", "G", "", 10, true, false⟩ rfl rfl (by decide) rfl "D" false false false

/-- The pricing contract as §4.1 of the spec words it: reject non-positive
input, otherwise the 2-decimal rounded amount. For comparison with the
implemented `calculateRubles`, which rejects nothing. -/
def calculateRublesSpec (stars : ℚ) : Option ℚ :=
  if stars ≤ 0 then none else some (toFixed2 (stars * 1.5 * 1.04))

/-- C8 counterexample: at the non-positive input 0, the spec's contract
demands a rejection but `calculateRubles` happily returns the value 0 —
the code has no input check at all. -/
theorem pricing_reject_cex :
    calculateRublesSpec 0 = none ∧ calculateRubles 0 = 0 := by
  constructor
  · simp [calculateRublesSpec]
  · norm_num [calculateRubles, toFixed2, jsRound]

/-- C8 amended: for every positive integer `n`, `price(n)` equals
`n * 1.5 * 1.04` rounded to two decimals, which is exactly `39n/25` (so
`price * 100` is the integer `156n`: exactly 2 decimal places);
`price(1) = 1.56`, `price(100) = 156.00`, and the invoiced minor-unit
amount `round(price * 100)` for 10 stars is 1560. The function is pure,
deterministic and total — it does not reject non-positive input. -/
theorem pricing_amended (n : ℕ) (_h : 0 < n) :
    calculateRubles n = toFixed2 ((n : ℚ) * 1.5 * 1.04) ∧
    calculateRubles n = 39 * n / 25 ∧
    calculateRubles n * 100 = ((156 * n : ℕ) : ℚ) ∧
    calculateRubles 1 = 1.56 ∧
    calculateRubles 100 = 156 ∧
    jsRound (calculateRubles 10 * 100) = 1560 := by
  have h1 := calculateRubles_nat 1
  have h10 := calculateRubles_nat 10
  have h100 := calculateRubles_nat 100
  push_cast at h1 h10 h100
  refine ⟨rfl, calculateRubles_nat n, ?_, ?_, ?_, ?_⟩
  · rw [calculateRubles_nat]
    push_cast
    ring
  · rw [h1]; norm_num
  · rw [h100]; norm_num
  · rw [h10]
    rw [show ((39:ℚ) * 10 / 25 * 100) = ((1560 : ℤ) : ℚ) by norm_num]
    rw [jsRound_intCast]

/-- Witness for the amended C8 at stars = 1. -/
theorem pricing_amended_w :
    0 < 1 ∧ calculateRubles ((1 : ℕ) : ℚ) = 39 * (1 : ℕ) / 25 :=
  ⟨by decide, (pricing_amended 1 (by decide)).2.1⟩

/-- A confirmation whose payload `gift-5` has no colon at all. -/
def ev9 : Update := ⟨some ⟨some ⟨"gift-5"⟩, "u2"⟩⟩

/-- Create and list a 5-star gift whose id is the string `gift-5`. -/
def tr9 : List Op := [.create "u1" "G" "" (some 5) 5, .sell "gift-5" none]

/-- The store after `tr9`. -/
def db9 : DB := exec tr9

/-- C9 counterexample: the colonless payload `gift-5` is NOT a safe no-op
on the reachable store `db9`: `split(':')` makes the whole payload the
gift id, which names a real unsold gift, so the handler sells it and
records a Purchase whose buyer is JS `undefined`. -/
theorem malformed_payload_cex :
    hasColon "gift-5" = false ∧
    Reachable db9 ∧
    (lookupA (webhook ev9 "D" false false db9).1.gifts "gift-5").map Gift.sold = some true ∧
    (webhook ev9 "D" false false db9).1.purchases.map Purchase.buyerId = [none] :=
  ⟨by decide, ⟨tr9, rfl⟩, by decide, by decide⟩

/-- C9 amended: a confirmation whose payload has no colon is parsed with
the whole payload as the gift id and no buyer id; it performs no state
mutation and is acknowledged with HTTP 200 provided that string does not
name an existing unsold gift — if it does, the sale transition fires. -/
theorem malformed_payload_amended (db : DB) (u : Update) (m : Msg)
    (sp : SuccessfulPayment) (hm : u.message = some m)
    (hsp : m.successful_payment = some sp)
    (hnc : hasColon sp.invoice_payload = false)
    (hsafe : ∀ g, lookupA db.gifts sp.invoice_payload = some g → g.sold = true)
    (d : String) (bF sF : Bool) :
    webhook u d bF sF db = (db, 200, ([] : List Call)) := by
  have hpp := parsePayload_no_colon sp.invoice_payload hnc
  have hnone : settles db u = none := by
    obtain ⟨msg⟩ := u
    cases hm
    simp only [settles, hsp, hpp]
    cases hgl : lookupA db.gifts sp.invoice_payload with
    | none => rfl
    | some g => simp [hsafe g hgl]
  rw [webhook_eq, hnone]

/-- Witness for the amended C9: a colonless payload naming no stored gift
is a safe acknowledged no-op on the concrete store `db9`. -/
theorem malformed_payload_amended_w :
    webhook ⟨some ⟨some ⟨"zzz"⟩, "u2"⟩⟩ "D" false false db9 = (db9, 200, ([] : List Call)) :=
  malformed_payload_amended db9 ⟨some ⟨some ⟨"zzz"⟩, "u2"⟩⟩ ⟨some ⟨"zzz"⟩, "u2"⟩ ⟨"zzz"⟩
    rfl rfl (by decide)
    (fun g hgl => by
      rw [show lookupA db9.gifts "zzz" = none from by decide] at hgl
      exact Option.noConfusion hgl)
    "D" false false
